import Mathlib

/-!
Verification of the pumpfun proxy server (`server.py`, `blockchain.py`).

The development shallowly embeds the two Python modules. External services
(the IPFS pinning endpoint, the trade API, the Solana RPC node) are modelled
by passing their observed HTTP responses as explicit inputs, and every
outbound call the code would make is recorded in an explicit trace, so that
"at most one attempt" style properties are statable. External SDK operations
(ed25519 key derivation, transaction wire (de)serialisation) are modelled by
fixed executable stand-ins; everything the claims inspect (base58, field
validation, control flow, response bodies) is translated from the source.
-/

namespace PumpFun

/- ### Little-endian digit expansions, executable by kernel reduction -/

/-- Fuel-bounded little-endian base-`b` digit expansion.  Agrees with
`Nat.digits` whenever the fuel bounds the number of digits (see
`toDigitsAux_eq_digits`); the fuel keeps the definition structurally
recursive so closed instances evaluate. -/
def toDigitsAux (b : Nat) : Nat → Nat → List Nat
  | 0, _ => []
  | fuel + 1, n => if n = 0 then [] else n % b :: toDigitsAux b fuel (n / b)

/-- Fuel large enough for every digit expansion appearing in this
development (all inputs are below `256 ^ 512`). -/
def DIGIT_FUEL : Nat := 1000

/-- Little-endian base-`b` digits of `n` (valid for `n < b ^ DIGIT_FUEL`). -/
def toDigitsLE (b n : Nat) : List Nat := toDigitsAux b DIGIT_FUEL n

theorem toDigitsAux_eq_digits (b : Nat) (hb : 2 ≤ b) :
    ∀ fuel n, n < b ^ fuel → toDigitsAux b fuel n = Nat.digits b n := by
  intro fuel
  induction fuel with
  | zero =>
    intro n h
    rw [pow_zero] at h
    interval_cases n
    simp [toDigitsAux]
  | succ fuel ih =>
    intro n h
    by_cases hn : n = 0
    · subst hn
      simp [toDigitsAux]
    · have hb1 : 1 < b := by omega
      rw [toDigitsAux, if_neg hn, Nat.digits_def' hb1 (Nat.pos_of_ne_zero hn)]
      congr 1
      apply ih
      rw [Nat.div_lt_iff_lt_mul (by omega : 0 < b)]
      calc n < b ^ (fuel + 1) := h
        _ = b ^ fuel * b := by rw [pow_succ]

theorem toDigitsLE_eq_digits (b n : Nat) (hb : 2 ≤ b) (h : n < b ^ DIGIT_FUEL) :
    toDigitsLE b n = Nat.digits b n :=
  toDigitsAux_eq_digits b hb DIGIT_FUEL n h

/-- Length of the digit expansion is bounded by any exponent bounding the
input. -/
theorem digits_length_le (b : Nat) (hb : 2 ≤ b) :
    ∀ k n, n < b ^ k → (Nat.digits b n).length ≤ k := by
  intro k
  induction k with
  | zero =>
    intro n h
    rw [pow_zero] at h
    interval_cases n
    simp
  | succ k ih =>
    intro n h
    by_cases hn : n = 0
    · subst hn; simp
    · rw [Nat.digits_def' (by omega : 1 < b) (Nat.pos_of_ne_zero hn)]
      have : n / b < b ^ k := by
        rw [Nat.div_lt_iff_lt_mul (by omega : 0 < b)]
        calc n < b ^ (k + 1) := h
          _ = b ^ k * b := by rw [pow_succ]
      simpa using ih (n / b) this

/- ### Big-endian evaluation of a digit list -/

/-- Big-endian base-`b` value of a digit list (the accumulator loop that
base58 and byte/number conversions perform). -/
def ofDigitsBE (b : Nat) (ds : List Nat) : Nat :=
  ds.foldl (fun a d => a * b + d) 0

theorem ofDigitsBE_reverse (b : Nat) (L : List Nat) :
    ofDigitsBE b L.reverse = Nat.ofDigits b L := by
  induction L with
  | nil => rfl
  | cons d t ih =>
    rw [List.reverse_cons]
    unfold ofDigitsBE at ih ⊢
    rw [List.foldl_append, ih]
    simp [Nat.ofDigits]
    ring

theorem ofDigitsBE_eq_ofDigits (b : Nat) (L : List Nat) :
    ofDigitsBE b L = Nat.ofDigits b L.reverse := by
  rw [← ofDigitsBE_reverse b L.reverse, List.reverse_reverse]

theorem ofDigitsBE_replicate_zero (b k : Nat) (L : List Nat) :
    ofDigitsBE b (List.replicate k 0 ++ L) = ofDigitsBE b L := by
  induction k with
  | zero => rfl
  | succ k ih =>
    simpa [ofDigitsBE, List.replicate_succ] using ih

theorem ofDigitsBE_lt (b : Nat) (hb : 1 < b) (L : List Nat)
    (hL : ∀ x ∈ L, x < b) : ofDigitsBE b L < b ^ L.length := by
  rw [ofDigitsBE_eq_ofDigits]
  have := Nat.ofDigits_lt_base_pow_length (l := L.reverse) hb
    (fun x hx => hL x (List.mem_reverse.mp hx))
  simpa using this

/- ### Base58 (Bitcoin alphabet), as used by the `base58` package and solders -/

def B58_ALPHABET : List Char :=
  ['1', '2', '3', '4', '5', '6', '7', '8', '9',
   'A', 'B', 'C', 'D', 'E', 'F', 'G', 'H', 'J', 'K', 'L', 'M', 'N',
   'P', 'Q', 'R', 'S', 'T', 'U', 'V', 'W', 'X', 'Y', 'Z',
   'a', 'b', 'c', 'd', 'e', 'f', 'g', 'h', 'i', 'j', 'k', 'm', 'n',
   'o', 'p', 'q', 'r', 's', 't', 'u', 'v', 'w', 'x', 'y', 'z']

def b58DigitChar (d : Nat) : Char := B58_ALPHABET.getD d '?'

def b58CharIndex (c : Char) : Option Nat :=
  List.findIdx? (fun x => x == c) B58_ALPHABET

/-- Map every character to its alphabet index, failing on any character
outside the alphabet. -/
def b58Indices : List Char → Option (List Nat)
  | [] => some []
  | c :: t =>
    match b58CharIndex c, b58Indices t with
    | some d, some ds => some (d :: ds)
    | _, _ => none

/-- `base58.b58encode`: leading zero bytes become `'1'`s; the remainder is
the big-endian base-58 expansion of the byte string's big-endian value. -/
def b58encode (bs : List Nat) : List Char :=
  List.replicate (bs.takeWhile (· == 0)).length '1'
    ++ (toDigitsLE 58 (ofDigitsBE 256 bs)).reverse.map b58DigitChar

/-- `base58.b58decode`: leading `'1'`s become zero bytes; the remainder is
read as a base-58 number and written out big-endian in base 256. -/
def b58decode (cs : List Char) : Option (List Nat) :=
  let z := (cs.takeWhile (· == '1')).length
  match b58Indices (cs.drop z) with
  | none => none
  | some ds => some (List.replicate z 0 ++ (toDigitsLE 256 (ofDigitsBE 58 ds)).reverse)

theorem b58CharIndex_digitChar : ∀ d, d < 58 → b58CharIndex (b58DigitChar d) = some d := by
  decide

theorem b58DigitChar_ne_one : ∀ d, d < 58 → d ≠ 0 → b58DigitChar d ≠ '1' := by
  decide

theorem b58Indices_map (ds : List Nat) (h : ∀ d ∈ ds, d < 58) :
    b58Indices (ds.map b58DigitChar) = some ds := by
  induction ds with
  | nil => rfl
  | cons d t ih =>
    simp only [List.map_cons, b58Indices]
    rw [b58CharIndex_digitChar d (h d (by simp)), ih (fun x hx => h x (by simp [hx]))]

theorem pow256_512_le_pow58_fuel : (256 : Nat) ^ 512 ≤ 58 ^ DIGIT_FUEL := by
  unfold DIGIT_FUEL
  calc (256 : Nat) ^ 512 = (2 ^ 8) ^ 512 := by norm_num
    _ = 2 ^ (8 * 512) := (pow_mul 2 8 512).symm
    _ ≤ 2 ^ 5000 := Nat.pow_le_pow_right (by norm_num) (by norm_num)
    _ = (2 ^ 5) ^ 1000 := by rw [← pow_mul]
    _ ≤ 58 ^ 1000 := Nat.pow_le_pow_left (by norm_num) 1000

theorem pow256_512_le_pow256_fuel : (256 : Nat) ^ 512 ≤ 256 ^ DIGIT_FUEL := by
  unfold DIGIT_FUEL
  exact Nat.pow_le_pow_right (by norm_num) (by norm_num)

/-- Round trip of the base58 codec on byte strings of bounded length
(every byte string this development encodes has length at most 64). -/
theorem b58_roundtrip (bs : List Nat) (hlt : ∀ x ∈ bs, x < 256)
    (hlen : bs.length ≤ 512) : b58decode (b58encode bs) = some bs := by
  have hsplit : bs.takeWhile (· == 0) ++ bs.dropWhile (· == 0) = bs :=
    List.takeWhile_append_dropWhile (· == 0) bs
  have htake : bs.takeWhile (· == 0)
      = List.replicate (bs.takeWhile (· == 0)).length 0 := by
    apply List.eq_replicate_of_mem
    intro b hb
    have := List.mem_takeWhile_imp hb
    simpa using this
  set z := (bs.takeWhile (· == 0)).length with hz
  set rest := bs.dropWhile (· == 0) with hrt
  have hval : ofDigitsBE 256 bs = ofDigitsBE 256 rest := by
    conv_lhs => rw [← hsplit, htake]
    exact ofDigitsBE_replicate_zero 256 z rest
  cases hre : rest with
  | nil =>
    have hbs : bs = List.replicate z 0 := by
      rw [← hsplit, htake, hre, List.append_nil]
    have hn : ofDigitsBE 256 bs = 0 := by rw [hval, hre]; rfl
    have hdig : toDigitsLE 58 (ofDigitsBE 256 bs) = [] := by
      rw [hn, toDigitsLE_eq_digits 58 0 (by norm_num) (pow_pos (by norm_num) _)]
      simp
    rw [b58encode, hdig, ← hz]
    simp only [List.reverse_nil, List.map_nil, List.append_nil, b58decode]
    rw [List.takeWhile_replicate]
    simp only [beq_self_eq_true, if_true, List.length_replicate,
      List.drop_replicate, Nat.sub_self, List.replicate_zero]
    show some (List.replicate z 0
      ++ (toDigitsLE 256 (ofDigitsBE 58 [])).reverse) = some bs
    have : ofDigitsBE 58 ([] : List Nat) = 0 := rfl
    rw [this, toDigitsLE_eq_digits 256 0 (by norm_num) (pow_pos (by norm_num) _)]
    simp [hbs]
  | cons r0 rtail =>
    -- the non-zero part of the byte string, little-endian
    have hrne : rest ≠ [] := by rw [hre]; simp
    have hmemrest : ∀ x ∈ rest, x < 256 := fun x hx =>
      hlt x ((List.dropWhile_sublist (· == 0)).subset hx)
    have hhead : rest.head? = some r0 := by rw [hre]; rfl
    have hr0 : r0 ≠ 0 := by
      have h := List.head?_dropWhile_not (· == 0) bs
      rw [← hrt, hhead] at h
      simpa using h
    have hr0mem : r0 ∈ rest := by rw [hre]; simp
    -- canonical little-endian digit list of the value
    have hLlt : ∀ x ∈ rest.reverse, x < 256 := fun x hx =>
      hmemrest x (List.mem_reverse.mp hx)
    have hLlast : ∀ h : rest.reverse ≠ [], rest.reverse.getLast h ≠ 0 := by
      intro h
      have h1 : rest.reverse.getLast? = some (rest.reverse.getLast h) :=
        List.getLast?_eq_getLast _ h
      have h2 : rest.reverse.getLast? = some r0 := by
        rw [List.getLast?_reverse, hhead]
      rw [h1] at h2
      have := Option.some.inj h2
      rw [this]
      exact hr0
    have hn : ofDigitsBE 256 bs = Nat.ofDigits 256 rest.reverse := by
      rw [hval, ofDigitsBE_eq_ofDigits]
    have hdig256 : Nat.digits 256 (ofDigitsBE 256 bs) = rest.reverse := by
      rw [hn]
      exact Nat.digits_ofDigits 256 (by norm_num) rest.reverse hLlt hLlast
    have hn0 : ofDigitsBE 256 bs ≠ 0 := by
      intro h0
      rw [h0] at hdig256
      simp at hdig256
      exact hrne hdig256
    have hbnd : ofDigitsBE 256 bs < 256 ^ 512 := by
      calc ofDigitsBE 256 bs < 256 ^ bs.length :=
            ofDigitsBE_lt 256 (by norm_num) bs hlt
        _ ≤ 256 ^ 512 := Nat.pow_le_pow_right (by norm_num) hlen
    set n := ofDigitsBE 256 bs with hndef
    have hb58 : toDigitsLE 58 n = Nat.digits 58 n :=
      toDigitsLE_eq_digits 58 n (by norm_num)
        (lt_of_lt_of_le hbnd pow256_512_le_pow58_fuel)
    -- digits of n in base 58 are canonical
    have hDne : Nat.digits 58 n ≠ [] := Nat.digits_ne_nil_iff_ne_zero.mpr hn0
    have hD58 : ∀ d ∈ Nat.digits 58 n, d < 58 := fun d hd =>
      Nat.digits_lt_base (by norm_num) hd
    have hDlast : (Nat.digits 58 n).getLast hDne ≠ 0 :=
      Nat.getLast_digit_ne_zero 58 hn0
    -- the mapped digit characters start with a non-'1' character
    have hrevne : (Nat.digits 58 n).reverse ≠ [] := by
      simpa using hDne
    have hrevhead : (Nat.digits 58 n).reverse.head?
        = some ((Nat.digits 58 n).getLast hDne) := by
      rw [List.head?_reverse]
      exact List.getLast?_eq_getLast _ hDne
    cases hm : (Nat.digits 58 n).reverse.map b58DigitChar with
    | nil =>
      exact absurd (by simpa using hm) hrevne
    | cons c ct =>
      have hc : c = b58DigitChar ((Nat.digits 58 n).getLast hDne) := by
        have h1 : ((Nat.digits 58 n).reverse.map b58DigitChar).head?
            = Option.map b58DigitChar (Nat.digits 58 n).reverse.head? :=
          List.head?_map _ _
        rw [hm, hrevhead] at h1
        simpa using h1
      have hcne1 : (c == '1') = false := by
        rw [beq_eq_false_iff_ne, hc]
        apply b58DigitChar_ne_one
        · exact hD58 _ (List.getLast_mem hDne)
        · exact hDlast
      -- now compute the decode of the encode
      rw [b58encode, hb58, ← hz, hm, b58decode]
      have htw : (List.replicate z '1' ++ c :: ct).takeWhile (· == '1')
          = List.replicate z '1' := by
        rw [List.takeWhile_append]
        rw [List.takeWhile_replicate]
        simp only [beq_self_eq_true, if_true, List.length_replicate, if_pos rfl]
        rw [List.takeWhile_cons, hcne1]
        simp
      rw [htw, List.length_replicate,
        List.drop_left' (List.length_replicate z '1'), ← hm]
      rw [b58Indices_map _ (fun d hd => hD58 d (List.mem_reverse.mp hd))]
      show some (List.replicate z 0
        ++ (toDigitsLE 256 (ofDigitsBE 58 (Nat.digits 58 n).reverse)).reverse)
        = some bs
      rw [ofDigitsBE_reverse, Nat.ofDigits_digits,
        toDigitsLE_eq_digits 256 n (by norm_num)
          (lt_of_lt_of_le hbnd pow256_512_le_pow256_fuel),
        hdig256, List.reverse_reverse]
      rw [← hsplit, htake]

/- ### Fixed-width big-endian byte serialisation -/

/-- Big-endian bytes of `n`, left-padded with zeros to width `len` (models
the fixed-width byte serialisation of the SDK's 32-byte key values). -/
def natToBytesFixed (len n : Nat) : List Nat :=
  List.replicate (len - (toDigitsLE 256 n).length) 0 ++ (toDigitsLE 256 n).reverse

theorem natToBytesFixed_lt (len n : Nat) (h : n < 256 ^ DIGIT_FUEL) :
    ∀ x ∈ natToBytesFixed len n, x < 256 := by
  intro x hx
  rcases List.mem_append.mp hx with h1 | h2
  · have := List.eq_of_mem_replicate h1
    omega
  · rw [toDigitsLE_eq_digits 256 n (by norm_num) h] at h2
    exact Nat.digits_lt_base (by norm_num) (List.mem_reverse.mp h2)

theorem natToBytesFixed_length (len n : Nat) (hb : n < 256 ^ len)
    (hf : n < 256 ^ DIGIT_FUEL) : (natToBytesFixed len n).length = len := by
  unfold natToBytesFixed
  rw [List.length_append, List.length_replicate, List.length_reverse]
  have : (toDigitsLE 256 n).length ≤ len := by
    rw [toDigitsLE_eq_digits 256 n (by norm_num) hf]
    exact digits_length_le 256 (by norm_num) len n hb
  omega

theorem natToBytesFixed_value (len n : Nat) (hf : n < 256 ^ DIGIT_FUEL) :
    ofDigitsBE 256 (natToBytesFixed len n) = n := by
  unfold natToBytesFixed
  rw [ofDigitsBE_replicate_zero, ofDigitsBE_reverse,
    toDigitsLE_eq_digits 256 n (by norm_num) hf, Nat.ofDigits_digits]

/- ### Python `str.strip()` -/

/-- The list-level strip underlying `pyStrip`. -/
def stripList (l : List Char) : List Char :=
  ((l.dropWhile Char.isWhitespace).reverse.dropWhile Char.isWhitespace).reverse

/-- Python `str.strip()` (its whitespace set modelled by
`Char.isWhitespace`). -/
def pyStrip (s : String) : String := String.mk (stripList s.data)

theorem head?_dropWhile_false {α : Type _} {p : α → Bool} {l : List α} {c : α}
    (h : (l.dropWhile p).head? = some c) : p c = false := by
  have hh := List.head?_dropWhile_not p l
  rw [h] at hh
  exact hh

theorem dropWhile_self_of_head {α : Type _} {p : α → Bool} {l : List α}
    (h : ∀ c, l.head? = some c → p c = false) : l.dropWhile p = l := by
  cases l with
  | nil => rfl
  | cons c t =>
    rw [List.dropWhile_cons, h c rfl]
    simp

theorem stripList_head?_false {l : List Char} {c : Char}
    (h : (stripList l).head? = some c) : c.isWhitespace = false := by
  unfold stripList at h
  rw [List.head?_reverse] at h
  set A := l.dropWhile Char.isWhitespace with hA
  have hsp : A.reverse.takeWhile Char.isWhitespace
      ++ A.reverse.dropWhile Char.isWhitespace = A.reverse :=
    List.takeWhile_append_dropWhile Char.isWhitespace A.reverse
  have hor : A.reverse.getLast? = some c := by
    rw [← hsp, List.getLast?_append, h]
    rfl
  rw [List.getLast?_reverse] at hor
  exact head?_dropWhile_false hor

theorem stripList_getLast?_false {l : List Char} {c : Char}
    (h : (stripList l).getLast? = some c) : c.isWhitespace = false := by
  unfold stripList at h
  rw [List.getLast?_reverse] at h
  exact head?_dropWhile_false h

theorem stripList_idem (l : List Char) : stripList (stripList l) = stripList l := by
  have h1 : (stripList l).dropWhile Char.isWhitespace = stripList l :=
    dropWhile_self_of_head (fun c hc => stripList_head?_false hc)
  have h2 : (stripList l).reverse.dropWhile Char.isWhitespace = (stripList l).reverse := by
    apply dropWhile_self_of_head
    intro c hc
    rw [List.head?_reverse] at hc
    exact stripList_getLast?_false hc
  show (((stripList l).dropWhile Char.isWhitespace).reverse.dropWhile
      Char.isWhitespace).reverse = stripList l
  rw [h1, h2, List.reverse_reverse]

theorem pyStrip_idem (s : String) : pyStrip (pyStrip s) = pyStrip s := by
  unfold pyStrip
  rw [show (String.mk (stripList s.data)).data = stripList s.data from rfl,
    stripList_idem]

/- ### Python `float(...)` on plain decimal strings -/

/-- Numeric value of a (validated) decimal digit string. -/
def decValue (cs : List Char) : Nat :=
  cs.foldl (fun a c => a * 10 + (c.toNat - 48)) 0

/-- Modelled from the Python standard library: `float(...)` restricted to
the plain decimal spellings `[+|-] digits`, `[+|-] digits . digits*` and
`[+|-] . digits` relevant to the `amount` form field; exponents and the
named forms are outside the model. -/
def parseDecimal (cs : List Char) : Option Rat :=
  let intPart := cs.takeWhile Char.isDigit
  let rest := cs.drop intPart.length
  match rest with
  | [] => if intPart.isEmpty then none else some ((decValue intPart : Nat) : Rat)
  | '.' :: frac =>
    if frac.all Char.isDigit && !(intPart.isEmpty && frac.isEmpty) then
      some (((decValue intPart : Nat) : Rat)
        + ((decValue frac : Nat) : Rat) / (10 : Rat) ^ frac.length)
    else none
  | _ => none

def parseFloat (s : String) : Option Rat :=
  match s.data with
  | '-' :: cs => (parseDecimal cs).map (fun q => -q)
  | '+' :: cs => parseDecimal cs
  | cs => parseDecimal cs

/- ### Base64 encoding (`base64.b64encode`) -/

def B64_ALPHABET : List Char :=
  ['A', 'B', 'C', 'D', 'E', 'F', 'G', 'H', 'I', 'J', 'K', 'L', 'M',
   'N', 'O', 'P', 'Q', 'R', 'S', 'T', 'U', 'V', 'W', 'X', 'Y', 'Z',
   'a', 'b', 'c', 'd', 'e', 'f', 'g', 'h', 'i', 'j', 'k', 'l', 'm',
   'n', 'o', 'p', 'q', 'r', 's', 't', 'u', 'v', 'w', 'x', 'y', 'z',
   '0', '1', '2', '3', '4', '5', '6', '7', '8', '9', '+', '/']

def b64Char (d : Nat) : Char := B64_ALPHABET.getD d '?'

/-- RFC 4648 base64 encoding of a byte string. -/
def b64encode : List Nat → List Char
  | [] => []
  | [b1] => [b64Char (b1 / 4), b64Char (b1 % 4 * 16), '=', '=']
  | [b1, b2] =>
    [b64Char (b1 / 4), b64Char (b1 % 4 * 16 + b2 / 16), b64Char (b2 % 16 * 4), '=']
  | b1 :: b2 :: b3 :: rest =>
    b64Char (b1 / 4) :: b64Char (b1 % 4 * 16 + b2 / 16)
      :: b64Char (b2 % 16 * 4 + b3 / 64) :: b64Char (b3 % 64) :: b64encode rest

/- ### Keypairs and public keys (solders / web3.js SDK model) -/

/-- Modelled abstractly: ed25519 public-key derivation from a 32-byte seed,
performed inside the solders/web3.js SDKs (external to this repository).
The claims only require it to be a fixed executable function of the seed. -/
def pubkeyDerive (seed : Nat) : Nat := (2 * seed + 1) % 2 ^ 256

/-- `str(Pubkey)`: base58 rendering of the 32 key bytes. -/
def pubkeyString (bs : List Nat) : String := String.mk (b58encode bs)

/-- `bytes(Keypair)`: the 32 seed bytes followed by the 32 public-key
bytes (64 bytes in total). -/
def keypairBytes (kp : Nat) : List Nat :=
  natToBytesFixed 32 kp ++ natToBytesFixed 32 (pubkeyDerive kp)

/-- `str(Keypair.pubkey())`. -/
def keypairPubkeyStr (kp : Nat) : String :=
  pubkeyString (natToBytesFixed 32 (pubkeyDerive kp))

/-- JS `Keypair.fromSecretKey` / solders `Keypair.from_bytes`: requires 64
bytes and reads the seed from the first 32. -/
def keypairFromBytes (bs : List Nat) : Option Nat :=
  if bs.length = 64 then some (ofDigitsBE 256 (bs.take 32)) else none

/-- What the client must do with a `create_tx` response: base58-decode the
`mint_keypair` field, rebuild the keypair, and render its public key. -/
def clientDerivePubkey (s : String) : Option String :=
  match b58decode s.data with
  | none => none
  | some bs =>
    match keypairFromBytes bs with
    | none => none
    | some kp => some (keypairPubkeyStr kp)

/-- `Pubkey.from_string`: base58 decode requiring exactly 32 bytes. -/
def pubkeyFromString (s : String) : Option (List Nat) :=
  match b58decode s.data with
  | none => none
  | some bs => if bs.length = 32 then some bs else none

/- ### Transactions (solders SDK model) -/

/-- Abstract signature value: the signing key paired with the signed
message (stands in for the ed25519 signature bytes of the SDK). -/
abbrev Sig := Nat × List Nat

def signMsg (kp : Nat) (msg : List Nat) : Sig := (kp, msg)

/-- solders `VersionedTransaction`: an opaque serialized message plus the
attached signatures. -/
structure VersionedTransaction where
  message : List Nat
  signatures : List Sig
deriving DecidableEq

/-- The solders constructor `VersionedTransaction(message, keypairs)`: keeps
the message unchanged and signs it with each keypair in the given order. -/
def mkVersionedTransaction (msg : List Nat) (keypairs : List Nat) :
    VersionedTransaction :=
  { message := msg, signatures := keypairs.map (fun kp => signMsg kp msg) }

/-- `blockchain.sign_tx(tx, mint_keypair, user_keypair)`. -/
def sign_tx (tx : VersionedTransaction) (mint_keypair user_keypair : Nat) :
    VersionedTransaction :=
  mkVersionedTransaction tx.message [user_keypair, mint_keypair]

/-- Modelled abstractly: SDK wire serialisation of a transaction (the
claims never relate it to deserialisation). -/
def txToBytes (tx : VersionedTransaction) : List Nat := tx.message

/-- Modelled abstractly: `VersionedTransaction.from_bytes`, a partial
decoding function; the claims depend only on it being partial. -/
def txFromBytes (bs : List Nat) : Option VersionedTransaction :=
  match bs with
  | [] => none
  | b :: rest =>
    if b = 0 then some { message := rest, signatures := [] } else none

/- ### blockchain.create_tx -/

/-- One outbound HTTP call of `blockchain.create_tx`, with the data the
source puts into the request. -/
inductive ExtCall where
  | ipfsUpload (name symbol description fileName : String) (image : List Nat)
  | tradeCreate (publicKey tokenName tokenSymbol uri mint denominatedInSol : String)
      (amount : Rat) (slippage : Nat) (priorityFee : Rat) (pool : String)
deriving DecidableEq

def ExtCall.isIpfs : ExtCall → Bool
  | .ipfsUpload .. => true
  | _ => false

def ExtCall.isTrade : ExtCall → Bool
  | .tradeCreate .. => true
  | _ => false

/-- The trade-API `amount` parameter of a call, if it is a trade call. -/
def ExtCall.amountField : ExtCall → Option Rat
  | .tradeCreate _ _ _ _ _ _ a _ _ _ => some a
  | _ => none

/-- Response of the IPFS pinning endpoint: HTTP status, and the decoded
JSON body (`none` when the body is not decodable JSON), which may or may
not carry a `metadataUri` field. -/
structure IpfsResp where
  status : Nat
  jsonBody : Option (Option String)
deriving DecidableEq

/-- Response of the trade-API endpoint: HTTP status and raw body bytes. -/
structure TradeResp where
  status : Nat
  content : List Nat
deriving DecidableEq

/-- Result of `blockchain.create_tx`: the Python function returns `None`
(here: the first five constructors, the middle two via an uncaught
exception) or the pair of unsigned transaction and mint keypair. -/
inductive CreateTxOutcome where
  | uploadFail
  | jsonFail
  | keyError
  | buildFail
  | deserialError
  | ok (tx : VersionedTransaction) (mint : Nat)
deriving DecidableEq

/-- `blockchain.create_tx`.  The fresh random `Keypair()` is supplied as
the `mint` input; the two external services' responses are supplied as
inputs; the returned list records every outbound call actually made, in
order. -/
def create_tx (name symbol description : String) (image_data : List Nat)
    (amount : Rat) (user_public_key : List Nat) (mint : Nat)
    (ipfs : IpfsResp) (trade : TradeResp) : CreateTxOutcome × List ExtCall :=
  let ipfsCall := ExtCall.ipfsUpload name symbol description
    (symbol ++ ".png") image_data
  if ipfs.status ≠ 200 then (.uploadFail, [ipfsCall])
  else
    match ipfs.jsonBody with
    | none => (.jsonFail, [ipfsCall])
    | some body =>
      match body with
      | none => (.keyError, [ipfsCall])
      | some uri =>
        let tradeCall := ExtCall.tradeCreate (pubkeyString user_public_key)
          name symbol uri (keypairPubkeyStr mint) "true" amount 10
          ((1 : Rat) / 2000) "pump"
        if trade.status ≠ 200 then (.buildFail, [ipfsCall, tradeCall])
        else
          match txFromBytes trade.content with
          | none => (.deserialError, [ipfsCall, tradeCall])
          | some tx => (.ok tx mint, [ipfsCall, tradeCall])

/- ### blockchain.broadcast_tx -/

/-- The `error` object of a JSON-RPC response body: the optional `message`
field and the string rendering of `error.get('data', {}).get('err', '')`. -/
structure RpcErrObj where
  message : Option String
  dataErr : Option String
deriving DecidableEq

/-- A send-transaction RPC response: HTTP status, optional `error` object,
optional `result` field. -/
structure RpcResp where
  status : Nat
  error : Option RpcErrObj
  result : Option String
deriving DecidableEq

/-- Python substring containment `needle in hay`. -/
def containsSub (needle : List Char) : List Char → Bool
  | [] => needle.isEmpty
  | c :: t => needle.isPrefixOf (c :: t) || containsSub needle t

/-- The `AccountNotFound` test of `blockchain.broadcast_tx` (line 107). -/
def isAccountNotFound (e : RpcErrObj) : Bool :=
  containsSub "AccountNotFound".data (e.dataErr.getD "").data
    || containsSub "no record of a prior credit".data
        (e.message.getD "Unknown error").data

/-- Outcome of `blockchain.broadcast_tx`; `rpcError` records whether the
distinguished account-not-funded branch (the funding instructions printed
to the server console) was taken. -/
inductive BroadcastOutcome where
  | httpError (status : Nat)
  | rpcError (accountNotFunded : Bool) (msg : String)
  | missingResult
  | success (sig : String)
deriving DecidableEq

/-- The Python return value (`str | None`) of an outcome. -/
def BroadcastOutcome.toReturn : BroadcastOutcome → Option String
  | .success s => some s
  | _ => none

/-- `blockchain.broadcast_tx`.  The RPC node's response is supplied as an
input; the second component records the payload of every RPC request made
(the source posts exactly one `SendVersionedTransaction` request). -/
def broadcast_tx (tx : VersionedTransaction) (rpc : RpcResp) :
    BroadcastOutcome × List (List Nat) :=
  let outcome :=
    if rpc.status ≠ 200 then BroadcastOutcome.httpError rpc.status
    else
      match rpc.error with
      | some e =>
        BroadcastOutcome.rpcError (isAccountNotFound e)
          (e.message.getD "Unknown error")
      | none =>
        match rpc.result with
        | none => BroadcastOutcome.missingResult
        | some sig => BroadcastOutcome.success sig
  (outcome, [txToBytes tx])

/- ### server.py response bodies and handlers -/

/-- JSON bodies the two endpoints produce via `jsonify`. -/
inductive RespBody where
  | err (msg : String)
  | createOk (unsigned_tx mint_keypair mint_public_key : String)
  | broadcastOk (signature transaction_url : String)
deriving DecidableEq

/-- The multipart form of a `/create_tx` request: `request.form` fields and
the `request.files` image (as its byte content). -/
structure CreateForm where
  name : Option String
  symbol : Option String
  description : Option String
  amount : Option String
  user_public_key : Option String
  image : Option (List Nat)

/-- Environment of one `/create_tx` request: the fresh mint keypair and the
responses of the two external services. -/
structure CreateEnv where
  mint : Nat
  ipfs : IpfsResp
  trade : TradeResp

/-- Lines 123-132 of `server.py`: defaulting and validation of `amount`
(`s` is the already stripped field value). -/
def computeAmount (s : String) : Except String Rat :=
  if s = "" then .ok 0
  else
    match parseFloat s with
    | none => .error "Amount must be a valid number"
    | some q => if q < 0 then .error "Amount cannot be negative" else .ok q

/-- `server.create_transaction` (the `/create_tx` handler): returns the
HTTP status and JSON body, together with the trace of outbound calls made
by `create_tx`. -/
def create_transaction (form : CreateForm) (env : CreateEnv) :
    (Nat × RespBody) × List ExtCall :=
  match form.name with
  | none => ((400, .err "Missing required field: name"), [])
  | some rawName =>
  match form.symbol with
  | none => ((400, .err "Missing required field: symbol"), [])
  | some rawSymbol =>
  match form.image with
  | none => ((400, .err "Missing required field: image"), [])
  | some image_data =>
  match form.user_public_key with
  | none => ((400, .err "Missing required field: user_public_key"), [])
  | some rawUpk =>
  let name := pyStrip rawName
  let symbol := pyStrip rawSymbol
  let description :=
    match form.description with
    | some d => pyStrip d
    | none => ""
  let amount := pyStrip (form.amount.getD "0")
  let upk := pyStrip rawUpk
  if name = "" then ((400, .err "Name cannot be empty"), [])
  else if symbol = "" then ((400, .err "Symbol cannot be empty"), [])
  else if upk = "" then ((400, .err "User public key cannot be empty"), [])
  else
    match computeAmount amount with
    | .error msg => ((400, .err msg), [])
    | .ok amount_float =>
      match pubkeyFromString upk with
      | none => ((400, .err "Invalid user public key"), [])
      | some upk_bytes =>
        if image_data = [] then ((400, .err "Image file is empty"), [])
        else
          match create_tx name symbol description image_data amount_float
              upk_bytes env.mint env.ipfs env.trade with
          | (.uploadFail, calls) => ((500, .err "Failed to create transaction"), calls)
          | (.jsonFail, calls) => ((500, .err "Failed to create transaction"), calls)
          | (.buildFail, calls) => ((500, .err "Failed to create transaction"), calls)
          | (.keyError, calls) => ((500, .err "Server error"), calls)
          | (.deserialError, calls) => ((500, .err "Server error"), calls)
          | (.ok tx mintKp, calls) =>
            ((200, .createOk (String.mk (b64encode (txToBytes tx)))
              (String.mk (b58encode (keypairBytes mintKp)))
              (keypairPubkeyStr mintKp)), calls)

/-- The JSON body of a `/broadcast_tx` request: whether the request is JSON
at all, and the `signed_tx` field if present. -/
structure BroadcastReq where
  isJsonReq : Bool
  signed_tx : Option String

/-- `server.broadcast_transaction` (the `/broadcast_tx` handler).
`decodeTx` models `base64.b64decode` composed with
`VersionedTransaction.from_bytes` (the guarded block of lines 195-200);
the RPC node's response is supplied as an input. -/
def broadcast_transaction (req : BroadcastReq)
    (decodeTx : String → Option VersionedTransaction) (rpc : RpcResp) :
    Nat × RespBody :=
  if req.isJsonReq = false then (400, .err "Request must be JSON")
  else
    match req.signed_tx with
    | none => (400, .err "Missing required field: signed_tx")
    | some s =>
      if s = "" then (400, .err "signed_tx cannot be empty")
      else
        match decodeTx s with
        | none => (400, .err "Invalid transaction data")
        | some tx =>
          match ((broadcast_tx tx rpc).1).toReturn with
          | none => (500, .err "Failed to broadcast transaction")
          | some sig =>
            (200, .broadcastOk sig ("https://solscan.io/tx/" ++ sig))

/- ### Concrete inputs used by witnesses and counterexamples -/

/-- A minimal transaction value. -/
def txW : VersionedTransaction := { message := [], signatures := [] }

/-- A decoder that accepts everything (models a well-formed `signed_tx`). -/
def okDecode : String → Option VersionedTransaction := fun _ => some txW

/-- A decoder that rejects everything (models an undecodable `signed_tx`). -/
def noneDecode : String → Option VersionedTransaction := fun _ => none

/-- The RPC error object of a simulated `AccountNotFound` failure. -/
def anfErr : RpcErrObj :=
  { message := some "Transaction simulation failed"
    dataErr := some "AccountNotFound" }

/-- An RPC response carrying the `AccountNotFound` error. -/
def anfRpc : RpcResp := { status := 200, error := some anfErr, result := none }

/-- An RPC response carrying an unrelated error. -/
def otherRpc : RpcResp :=
  { status := 200
    error := some { message := some "blockhash not found", dataErr := some "" }
    result := none }

/-- A successful RPC response. -/
def sigRpc : RpcResp := { status := 200, error := none, result := some "sig" }

/-- A 2xx-but-not-200 RPC response with a well-formed result. -/
def resp201 : RpcResp := { status := 201, error := none, result := some "abc" }

/- ### C3: sign_tx only adds the two signatures, in order [user, mint] -/

/-- C3: for every unsigned transaction and keypairs, `sign_tx(tx, mint, user)`
keeps the message bytes unchanged and attaches exactly the two signatures
`[user, mint]`, in that order. -/
theorem sign_tx_only_adds_signatures (tx : VersionedTransaction)
    (mint_keypair user_keypair : Nat) :
    (sign_tx tx mint_keypair user_keypair).message = tx.message
    ∧ (sign_tx tx mint_keypair user_keypair).signatures
      = [signMsg user_keypair tx.message, signMsg mint_keypair tx.message] :=
  ⟨rfl, rfl⟩

/- ### C5: missing create_tx fields give 400 with a field-specific message -/

/-- C5: a `/create_tx` request missing `name`, `symbol`, `image` or
`user_public_key` is answered with 400 and a message naming the missing
field (fields are checked in the source's order), with no outbound call. -/
theorem create_tx_missing_field_400 :
    (∀ sy de am up im (env : CreateEnv),
      create_transaction ⟨none, sy, de, am, up, im⟩ env
        = ((400, .err "Missing required field: name"), []))
    ∧ (∀ nm de am up im (env : CreateEnv),
      create_transaction ⟨some nm, none, de, am, up, im⟩ env
        = ((400, .err "Missing required field: symbol"), []))
    ∧ (∀ nm sy de am up (env : CreateEnv),
      create_transaction ⟨some nm, some sy, de, am, up, none⟩ env
        = ((400, .err "Missing required field: image"), []))
    ∧ (∀ nm sy de am im (env : CreateEnv),
      create_transaction ⟨some nm, some sy, de, am, none, some im⟩ env
        = ((400, .err "Missing required field: user_public_key"), [])) :=
  ⟨fun _ _ _ _ _ _ => rfl, fun _ _ _ _ _ _ => rfl,
   fun _ _ _ _ _ _ => rfl, fun _ _ _ _ _ _ => rfl⟩

/- ### C7: undecodable signed_tx gives 400, never 500 -/

/-- C7: a JSON `/broadcast_tx` request whose non-empty `signed_tx` does not
base64-decode into a deserializable transaction is answered with 400
(`Invalid transaction data`), never 500. -/
theorem broadcast_invalid_tx_400 (s : String)
    (d : String → Option VersionedTransaction) (rpc : RpcResp)
    (hne : s ≠ "") (hd : d s = none) :
    broadcast_transaction ⟨true, some s⟩ d rpc
      = (400, RespBody.err "Invalid transaction data") := by
  unfold broadcast_transaction
  simp [hne, hd]

theorem broadcast_invalid_tx_400_witness :
    broadcast_transaction ⟨true, some "AA"⟩ noneDecode sigRpc
      = (400, RespBody.err "Invalid transaction data") :=
  broadcast_invalid_tx_400 "AA" noneDecode sigRpc (by decide) rfl

/- ### C4: broadcast_tx response handling (corrected: 200, not 2xx) -/

/-- C4 counterexample: a 2xx (201) response with no `error` and a `result`
field is still treated as a failure by `broadcast_tx`, because the source
tests `status_code != 200`, not membership in the 2xx class. -/
theorem broadcast_tx_2xx_claim_false :
    (200 ≤ resp201.status ∧ resp201.status < 300
      ∧ resp201.error = none ∧ resp201.result = some "abc")
    ∧ (broadcast_tx txW resp201).1.toReturn = none := by
  decide

/-- C4 (amended: "non-2xx" read as "not exactly 200"): `broadcast_tx` makes
a single RPC attempt, returns no signature when the HTTP status is not 200,
or when the body has an `error` field, and otherwise returns exactly the
optional `result` field (so a missing `result` is also a failure). -/
theorem broadcast_tx_single_attempt_result (tx : VersionedTransaction)
    (rpc : RpcResp) :
    (broadcast_tx tx rpc).2.length = 1
    ∧ (rpc.status ≠ 200 → (broadcast_tx tx rpc).1.toReturn = none)
    ∧ (∀ e, rpc.error = some e → (broadcast_tx tx rpc).1.toReturn = none)
    ∧ (rpc.status = 200 → rpc.error = none →
        (broadcast_tx tx rpc).1.toReturn = rpc.result) := by
  refine ⟨rfl, ?_, ?_, ?_⟩
  · intro h
    simp [broadcast_tx, h, BroadcastOutcome.toReturn]
  · intro e he
    unfold broadcast_tx
    by_cases h : rpc.status = 200
    · simp [h, he, BroadcastOutcome.toReturn]
    · simp [h, BroadcastOutcome.toReturn]
  · intro h he
    unfold broadcast_tx
    simp only [h, he]
    cases hr : rpc.result with
    | none => simp [BroadcastOutcome.toReturn]
    | some sig => simp [BroadcastOutcome.toReturn]

theorem broadcast_tx_single_attempt_result_witness :
    (broadcast_tx txW { status := 500, error := none, result := none }).1.toReturn = none
    ∧ (broadcast_tx txW anfRpc).1.toReturn = none
    ∧ (broadcast_tx txW sigRpc).1.toReturn = some "sig" :=
  ⟨(broadcast_tx_single_attempt_result txW _).2.1 (by decide),
   (broadcast_tx_single_attempt_result txW anfRpc).2.2.1 anfErr rfl,
   (broadcast_tx_single_attempt_result txW sigRpc).2.2.2 rfl rfl⟩

/- ### C1: AccountNotFound handling (corrected: distinguished only in the
server log, the HTTP caller still receives the generic error) -/

/-- C1 counterexample: for a `/broadcast_tx` request whose RPC response
carries an `AccountNotFound` error, the HTTP caller receives exactly the
generic `(500, "Failed to broadcast transaction")` — byte-identical to the
response for an unrelated RPC error — so no distinguished funding-required
condition is surfaced to the caller. -/
theorem accountNotFound_not_surfaced_to_caller :
    broadcast_transaction ⟨true, some "AA"⟩ okDecode anfRpc
      = (500, RespBody.err "Failed to broadcast transaction")
    ∧ broadcast_transaction ⟨true, some "AA"⟩ okDecode anfRpc
      = broadcast_transaction ⟨true, some "AA"⟩ okDecode otherRpc
    ∧ isAccountNotFound anfErr = true := by
  decide

/-- C1 (amended): `broadcast_tx` does detect the account-not-funded
condition and takes the distinguished branch (printing funding instructions
to the server console), but the `/broadcast_tx` caller still receives the
generic 500 `Failed to broadcast transaction` response. -/
theorem accountNotFound_distinguished_internally_only
    (req : BroadcastReq) (d : String → Option VersionedTransaction)
    (rpc : RpcResp) (s : String) (tx : VersionedTransaction) (e : RpcErrObj)
    (hjson : req.isJsonReq = true) (hs : req.signed_tx = some s)
    (hne : s ≠ "") (hd : d s = some tx) (h200 : rpc.status = 200)
    (herr : rpc.error = some e) (hanf : isAccountNotFound e = true) :
    (broadcast_tx tx rpc).1
      = BroadcastOutcome.rpcError true (e.message.getD "Unknown error")
    ∧ broadcast_transaction req d rpc
      = (500, RespBody.err "Failed to broadcast transaction") := by
  have h1 : (broadcast_tx tx rpc).1
      = BroadcastOutcome.rpcError true (e.message.getD "Unknown error") := by
    simp [broadcast_tx, h200, herr, hanf]
  refine ⟨h1, ?_⟩
  unfold broadcast_transaction
  rw [hjson, hs]
  simp only [Bool.true_eq_false, if_false]
  rw [if_neg hne, hd]
  dsimp only
  rw [h1]
  rfl

theorem accountNotFound_distinguished_internally_only_witness :
    (broadcast_tx txW anfRpc).1
      = BroadcastOutcome.rpcError true "Transaction simulation failed"
    ∧ broadcast_transaction ⟨true, some "AA"⟩ okDecode anfRpc
      = (500, RespBody.err "Failed to broadcast transaction") :=
  accountNotFound_distinguished_internally_only ⟨true, some "AA"⟩ okDecode
    anfRpc "AA" txW anfErr rfl rfl (by decide) rfl rfl rfl (by decide)

/- ### C8: create_tx calls each service at most once and aborts cleanly -/

/-- C8: `create_tx` attempts each external call at most once; a
metadata-upload response that is not 200 (in particular any non-2xx one) or
an undecodable upload body aborts before the trade call with no partial
result, and a non-200 transaction-construction response aborts with no
partial result. -/
theorem create_tx_single_attempt_abort (n s d : String) (img : List Nat)
    (a : Rat) (u : List Nat) (m : Nat) (ip : IpfsResp) (tr : TradeResp) :
    ((create_tx n s d img a u m ip tr).2.countP ExtCall.isIpfs ≤ 1
      ∧ (create_tx n s d img a u m ip tr).2.countP ExtCall.isTrade ≤ 1)
    ∧ (ip.status ≠ 200 →
        (create_tx n s d img a u m ip tr).1 = CreateTxOutcome.uploadFail
        ∧ (create_tx n s d img a u m ip tr).2.countP ExtCall.isTrade = 0)
    ∧ (ip.status = 200 → ip.jsonBody = none →
        (create_tx n s d img a u m ip tr).1 = CreateTxOutcome.jsonFail
        ∧ (create_tx n s d img a u m ip tr).2.countP ExtCall.isTrade = 0)
    ∧ (∀ uri, ip.status = 200 → ip.jsonBody = some (some uri) →
        tr.status ≠ 200 →
        (create_tx n s d img a u m ip tr).1 = CreateTxOutcome.buildFail) := by
  by_cases hip : ip.status = 200
  · cases hb : ip.jsonBody with
    | none =>
      simp [create_tx, hip, hb, List.countP_cons, List.countP_nil,
        ExtCall.isIpfs, ExtCall.isTrade]
    | some body =>
      cases body with
      | none =>
        simp [create_tx, hip, hb, List.countP_cons, List.countP_nil,
          ExtCall.isIpfs, ExtCall.isTrade]
      | some uri =>
        by_cases htr : tr.status = 200
        · cases htx : txFromBytes tr.content with
          | none =>
            simp [create_tx, hip, hb, htr, htx, List.countP_cons,
              List.countP_nil, ExtCall.isIpfs, ExtCall.isTrade]
          | some tx =>
            simp [create_tx, hip, hb, htr, htx, List.countP_cons,
              List.countP_nil, ExtCall.isIpfs, ExtCall.isTrade]
        · simp [create_tx, hip, hb, htr, List.countP_cons, List.countP_nil,
            ExtCall.isIpfs, ExtCall.isTrade]
  · simp [create_tx, hip, List.countP_cons, List.countP_nil,
      ExtCall.isIpfs, ExtCall.isTrade]

theorem create_tx_single_attempt_abort_witness :
    (create_tx "n" "s" "d" [1] 0 [] 7 { status := 503, jsonBody := none }
        { status := 200, content := [0] }).1 = CreateTxOutcome.uploadFail
    ∧ (create_tx "n" "s" "d" [1] 0 [] 7 { status := 200, jsonBody := none }
        { status := 200, content := [0] }).1 = CreateTxOutcome.jsonFail
    ∧ (create_tx "n" "s" "d" [1] 0 [] 7
        { status := 200, jsonBody := some (some "u") }
        { status := 400, content := [0] }).1 = CreateTxOutcome.buildFail :=
  ⟨((create_tx_single_attempt_abort "n" "s" "d" [1] 0 [] 7 _ _).2.1
      (by decide)).1,
   ((create_tx_single_attempt_abort "n" "s" "d" [1] 0 [] 7 _ _).2.2.1
      rfl rfl).1,
   (create_tx_single_attempt_abort "n" "s" "d" [1] 0 [] 7 _ _).2.2.2 "u"
      rfl rfl (by decide)⟩

/- ### C2: the mint fields of a successful create_tx response agree -/

/-- The keypair returned inside a successful `create_tx` result is exactly
the freshly generated mint keypair. -/
theorem create_tx_ok_mint {n s d : String} {img : List Nat} {a : Rat}
    {u : List Nat} {m : Nat} {ip : IpfsResp} {tr : TradeResp}
    {tx : VersionedTransaction} {k : Nat} {calls : List ExtCall}
    (h : create_tx n s d img a u m ip tr = (CreateTxOutcome.ok tx k, calls)) :
    k = m := by
  unfold create_tx at h
  repeat' split at h
  all_goals
    (first
      | exact CreateTxOutcome.noConfusion (congrArg Prod.fst h)
      | (have h1 := congrArg Prod.fst h
         injection h1 with h2 h3
         exact h3.symm))

/-- Round trip justifying C2: base58-decoding the encoded 64-byte keypair,
taking the seed, and re-deriving the public key gives back the rendered
public key. -/
theorem clientDerivePubkey_keypair (m : Nat) (hm : m < 2 ^ 256) :
    clientDerivePubkey (String.mk (b58encode (keypairBytes m)))
      = some (keypairPubkeyStr m) := by
  have hpow : (256 : Nat) ^ 32 = 2 ^ 256 := by
    have h8 : (256 : Nat) ^ 32 = (2 ^ 8) ^ 32 := by norm_num
    rw [h8, ← pow_mul]
  have hm32 : m < 256 ^ 32 := by rw [hpow]; exact hm
  have hfe : (256 : Nat) ^ 32 ≤ 256 ^ DIGIT_FUEL :=
    Nat.pow_le_pow_right (by norm_num) (by norm_num [DIGIT_FUEL])
  have hmf : m < 256 ^ DIGIT_FUEL := lt_of_lt_of_le hm32 hfe
  have hd32 : pubkeyDerive m < 256 ^ 32 := by
    rw [hpow]
    exact Nat.mod_lt _ (by positivity)
  have hdf : pubkeyDerive m < 256 ^ DIGIT_FUEL := lt_of_lt_of_le hd32 hfe
  have hlen1 : (natToBytesFixed 32 m).length = 32 :=
    natToBytesFixed_length 32 m hm32 hmf
  have hlen2 : (natToBytesFixed 32 (pubkeyDerive m)).length = 32 :=
    natToBytesFixed_length 32 _ hd32 hdf
  have hlen : (keypairBytes m).length = 64 := by
    unfold keypairBytes
    rw [List.length_append, hlen1, hlen2]
  have hlt : ∀ x ∈ keypairBytes m, x < 256 := by
    intro x hx
    rcases List.mem_append.mp hx with h | h
    · exact natToBytesFixed_lt 32 m hmf x h
    · exact natToBytesFixed_lt 32 _ hdf x h
  have hrt : b58decode (b58encode (keypairBytes m)) = some (keypairBytes m) :=
    b58_roundtrip _ hlt (by rw [hlen]; norm_num)
  have htake : (keypairBytes m).take 32 = natToBytesFixed 32 m := by
    unfold keypairBytes
    exact List.take_left' hlen1
  have hkb : keypairFromBytes (keypairBytes m) = some m := by
    unfold keypairFromBytes
    rw [if_pos hlen, htake, natToBytesFixed_value 32 m hmf]
  unfold clientDerivePubkey
  rw [show (String.mk (b58encode (keypairBytes m))).data
    = b58encode (keypairBytes m) from rfl, hrt]
  dsimp only
  rw [hkb]

/-- The C2 consistency check on a response body: a `createOk` body passes
when re-deriving the public key from `mint_keypair` yields exactly
`mint_public_key`; any other body fails the check. -/
def mintFieldsConsistent : RespBody → Bool
  | .createOk _ kb pk => clientDerivePubkey kb == some pk
  | _ => false

/-- C2: every 200 response of `/create_tx` carries mint fields such that
base58-decoding `mint_keypair` and deriving its public key gives exactly
`mint_public_key`. -/
theorem create_tx_mint_fields_consistent (form : CreateForm) (env : CreateEnv)
    (hm : env.mint < 2 ^ 256) :
    (create_transaction form env).1.1 = 200 →
      mintFieldsConsistent (create_transaction form env).1.2 = true := by
  simp only [create_transaction]
  repeat' split
  all_goals intro h200
  all_goals try (solve | (exfalso; simp at h200))
  rename_i heq
  dsimp only [mintFieldsConsistent]
  rw [create_tx_ok_mint heq]
  simp [clientDerivePubkey_keypair env.mint hm]

/-- A fully valid concrete `/create_tx` form. -/
def witForm : CreateForm :=
  { name := some " tok ", symbol := some "TK", description := some " d ",
    amount := some "2",
    user_public_key := some (String.mk (List.replicate 32 '1')),
    image := some [7, 8] }

/-- A concrete environment in which both external services succeed. -/
def witEnv : CreateEnv :=
  { mint := 3, ipfs := { status := 200, jsonBody := some (some "uri") },
    trade := { status := 200, content := [0, 9, 9] } }

theorem create_tx_mint_fields_consistent_witness :
    mintFieldsConsistent (create_transaction witForm witEnv).1.2 = true :=
  create_tx_mint_fields_consistent witForm witEnv (by norm_num [witEnv]) (by decide)

/- ### C6: negative amount is rejected, absent amount defaults to zero -/

/-- Every trade call recorded by `create_tx` carries exactly the `amount`
argument (and upload calls carry no amount at all). -/
theorem create_tx_amountField (n s d : String) (img : List Nat) (a : Rat)
    (u : List Nat) (m : Nat) (ip : IpfsResp) (tr : TradeResp) :
    ∀ c ∈ (create_tx n s d img a u m ip tr).2,
      c.amountField = none ∨ c.amountField = some a := by
  unfold create_tx
  repeat' split
  all_goals intro c hc
  all_goals simp at hc
  all_goals
    (first
      | (obtain rfl := hc
         simp [ExtCall.amountField])
      | (obtain rfl | rfl := hc <;> simp [ExtCall.amountField]))

/-- With no `amount` field, every downstream trade call carries amount 0. -/
theorem create_transaction_calls_amountField (form : CreateForm)
    (env : CreateEnv) (h : form.amount = none) :
    ∀ c ∈ (create_transaction form env).2,
      c.amountField = none ∨ c.amountField = some 0 := by
  intro c hc
  have hval : computeAmount (pyStrip "0") = Except.ok 0 := by rfl
  simp only [create_transaction, h, Option.getD_none, hval] at hc
  repeat' split at hc
  all_goals try (solve | simp at hc)
  all_goals
    (rename_i heq
     exact create_tx_amountField _ _ _ _ _ _ _ _ _ c (by rw [heq]; exact hc))

/-- With no `amount` field, the response is never an amount error. -/
theorem create_transaction_amount_none_no_error (form : CreateForm)
    (env : CreateEnv) (h : form.amount = none) :
    (create_transaction form env).1.2 ≠ RespBody.err "Amount cannot be negative"
    ∧ (create_transaction form env).1.2
        ≠ RespBody.err "Amount must be a valid number" := by
  have hval : computeAmount (pyStrip "0") = Except.ok 0 := by rfl
  simp only [create_transaction, h, Option.getD_none, hval]
  repeat' split
  all_goals refine ⟨?_, ?_⟩ <;> first | decide | simp

/-- C6: with all required fields present and non-empty, an `amount` parsing
to a negative value is rejected with 400 before any outbound call; an
absent `amount` produces no amount-related error and every downstream
trade call carries amount 0. -/
theorem create_tx_amount_semantics (env : CreateEnv) :
    (∀ (nm sy : String) (de : Option String) (am up : String)
        (img : List Nat) (q : Rat),
      pyStrip nm ≠ "" → pyStrip sy ≠ "" → pyStrip up ≠ "" →
      parseFloat (pyStrip am) = some q → q < 0 →
      create_transaction ⟨some nm, some sy, de, some am, some up, some img⟩ env
        = ((400, RespBody.err "Amount cannot be negative"), []))
    ∧ (∀ form : CreateForm, form.amount = none →
        ((create_transaction form env).1.2
            ≠ RespBody.err "Amount cannot be negative"
          ∧ (create_transaction form env).1.2
            ≠ RespBody.err "Amount must be a valid number")
        ∧ ∀ c ∈ (create_transaction form env).2,
            c.amountField = none ∨ c.amountField = some 0) := by
  constructor
  · intro nm sy de am up img q h1 h2 h3 hq hlt
    have hca : computeAmount (pyStrip am)
        = Except.error "Amount cannot be negative" := by
      unfold computeAmount
      by_cases he : pyStrip am = ""
      · rw [he] at hq
        rw [show parseFloat "" = none from rfl] at hq
        exact Option.noConfusion hq
      · rw [if_neg he, hq]
        dsimp only
        rw [if_pos hlt]
    simp [create_transaction, h1, h2, h3, hca]
  · intro form h
    exact ⟨create_transaction_amount_none_no_error form env h,
      create_transaction_calls_amountField form env h⟩

/-- An otherwise valid form with no `amount` field. -/
def witFormNoAmount : CreateForm :=
  { name := some "x", symbol := some "y", description := none,
    amount := none, user_public_key := some "z", image := some [1] }

theorem create_tx_amount_semantics_witness :
    create_transaction ⟨some "a", some "b", none, some "-1", some "c", some [1]⟩
        witEnv = ((400, RespBody.err "Amount cannot be negative"), [])
    ∧ (create_transaction witFormNoAmount witEnv).1.2
        ≠ RespBody.err "Amount cannot be negative" :=
  ⟨(create_tx_amount_semantics witEnv).1 "a" "b" none "-1" "c" [1] _
      (by decide) (by decide) (by decide) rfl (by decide),
   ((create_tx_amount_semantics witEnv).2 witFormNoAmount rfl).1.1⟩

/- ### C9: present-but-empty required fields are rejected client-side -/

/-- C9: a `/create_tx` request whose required text fields are present but
strip to the empty string is rejected with 400 and the field-specific
message, and a zero-byte image always yields a 400 response; in every such
case no outbound call is made. -/
theorem create_tx_empty_field_rejection (env : CreateEnv) :
    (∀ (nm sy : String) (de am : Option String) (up : String)
        (img : List Nat),
      pyStrip nm = "" →
      create_transaction ⟨some nm, some sy, de, am, some up, some img⟩ env
        = ((400, RespBody.err "Name cannot be empty"), []))
    ∧ (∀ (nm sy : String) (de am : Option String) (up : String)
        (img : List Nat),
      pyStrip nm ≠ "" → pyStrip sy = "" →
      create_transaction ⟨some nm, some sy, de, am, some up, some img⟩ env
        = ((400, RespBody.err "Symbol cannot be empty"), []))
    ∧ (∀ (nm sy : String) (de am : Option String) (up : String)
        (img : List Nat),
      pyStrip nm ≠ "" → pyStrip sy ≠ "" → pyStrip up = "" →
      create_transaction ⟨some nm, some sy, de, am, some up, some img⟩ env
        = ((400, RespBody.err "User public key cannot be empty"), []))
    ∧ (∀ form : CreateForm, form.image = some [] →
        (create_transaction form env).1.1 = 400
        ∧ (create_transaction form env).2 = []) := by
  refine ⟨?_, ?_, ?_, ?_⟩
  · intro nm sy de am up img h1
    simp [create_transaction, h1]
  · intro nm sy de am up img h1 h2
    simp [create_transaction, h1, h2]
  · intro nm sy de am up img h1 h2 h3
    simp [create_transaction, h1, h2, h3]
  · intro form h
    simp only [create_transaction, h]
    repeat' split
    all_goals first
      | exact ⟨rfl, rfl⟩
      | simp_all

theorem create_tx_empty_field_rejection_witness :
    create_transaction ⟨some "  ", some "b", none, none, some "c", some [1]⟩
        witEnv = ((400, RespBody.err "Name cannot be empty"), [])
    ∧ (create_transaction
        ⟨some "a", some "b", none, none, some "c", some []⟩ witEnv).1.1 = 400
    ∧ (create_transaction
        ⟨some "a", some "b", none, none, some "c", some []⟩ witEnv).2 = [] :=
  ⟨(create_tx_empty_field_rejection witEnv).1 "  " "b" none none "c" [1]
      (by decide),
   ((create_tx_empty_field_rejection witEnv).2.2.2
      ⟨some "a", some "b", none, none, some "c", some []⟩ rfl).1,
   ((create_tx_empty_field_rejection witEnv).2.2.2
      ⟨some "a", some "b", none, none, some "c", some []⟩ rfl).2⟩

/- ### C10: whitespace is stripped before validation and use -/

/-- Whether a string is unchanged by stripping (no surrounding
whitespace). -/
def strippedStr (s : String) : Bool := pyStrip s == s

/-- The form-derived text fields of an outbound call are all strip
fixpoints. -/
def ExtCall.textFieldsStripped : ExtCall → Bool
  | .ipfsUpload n s d _ _ => strippedStr n && strippedStr s && strippedStr d
  | .tradeCreate _ n s _ _ _ _ _ _ _ => strippedStr n && strippedStr s

/-- The form with `str.strip()` applied to its five text fields. -/
def stripForm (form : CreateForm) : CreateForm :=
  { form with
    name := form.name.map pyStrip
    symbol := form.symbol.map pyStrip
    description := form.description.map pyStrip
    amount := form.amount.map pyStrip
    user_public_key := form.user_public_key.map pyStrip }

theorem create_tx_calls_stripped (n s d : String) (img : List Nat) (a : Rat)
    (u : List Nat) (m : Nat) (ip : IpfsResp) (tr : TradeResp)
    (hn : strippedStr n = true) (hs : strippedStr s = true)
    (hd : strippedStr d = true) :
    ∀ c ∈ (create_tx n s d img a u m ip tr).2,
      c.textFieldsStripped = true := by
  unfold create_tx
  repeat' split
  all_goals intro c hc
  all_goals simp at hc
  all_goals
    (first
      | (obtain rfl := hc
         simp [ExtCall.textFieldsStripped, hn, hs, hd])
      | (obtain rfl | rfl := hc <;>
          simp [ExtCall.textFieldsStripped, hn, hs, hd]))

theorem strippedStr_pyStrip (x : String) : strippedStr (pyStrip x) = true := by
  simp [strippedStr, pyStrip_idem]

theorem create_transaction_calls_stripped (form : CreateForm)
    (env : CreateEnv) :
    ∀ c ∈ (create_transaction form env).2, c.textFieldsStripped = true := by
  intro c hc
  simp only [create_transaction] at hc
  repeat' split at hc
  all_goals try (solve | simp at hc)
  all_goals
    (rename_i heq
     refine create_tx_calls_stripped _ _ _ _ _ _ _ _ _ ?_ ?_ ?_ c
       (by rw [heq]; exact hc)
     · exact strippedStr_pyStrip _
     · exact strippedStr_pyStrip _
     · cases form.description with
       | none => decide
       | some dd => exact strippedStr_pyStrip dd)

/-- C10: `/create_tx` strips surrounding whitespace from its five text
fields before validation and use: stripping the form fields first changes
nothing, a whitespace-only required field is rejected as empty with 400, a
whitespace-only `amount` falls back to zero, and every value an outbound
call carries is a strip fixpoint. -/
theorem create_tx_strips_whitespace (form : CreateForm) (env : CreateEnv) :
    create_transaction (stripForm form) env = create_transaction form env
    ∧ (∀ (nm sy : String) (de am : Option String) (up : String)
        (img : List Nat),
      pyStrip nm = "" →
      create_transaction ⟨some nm, some sy, de, am, some up, some img⟩ env
        = ((400, RespBody.err "Name cannot be empty"), []))
    ∧ (∀ a : String, pyStrip a = "" →
        computeAmount (pyStrip a) = Except.ok 0)
    ∧ (∀ c ∈ (create_transaction form env).2,
        c.textFieldsStripped = true) := by
  refine ⟨?_, ?_, ?_, create_transaction_calls_stripped form env⟩
  · rcases form with ⟨nm, sy, de, am, up, im⟩
    rcases nm with _ | rawName <;> rcases sy with _ | rawSymbol <;>
      rcases de with _ | rawDe <;> rcases am with _ | rawAm <;>
      rcases up with _ | rawUp <;>
      simp [stripForm, create_transaction, pyStrip_idem]
  · intro nm sy de am up img h1
    simp [create_transaction, h1]
  · intro a ha
    rw [ha]
    rfl

theorem create_tx_strips_whitespace_witness :
    create_transaction ⟨some " ", some "b", none, none, some "c", some [1]⟩
        witEnv = ((400, RespBody.err "Name cannot be empty"), [])
    ∧ computeAmount (pyStrip "  ") = Except.ok 0
    ∧ (ExtCall.ipfsUpload "tok" "TK" "d" "TK.png" [7, 8]).textFieldsStripped
        = true :=
  ⟨(create_tx_strips_whitespace witForm witEnv).2.1 " " "b" none none "c" [1]
      (by decide),
   (create_tx_strips_whitespace witForm witEnv).2.2.1 "  " (by decide),
   (create_tx_strips_whitespace witForm witEnv).2.2.2
      (ExtCall.ipfsUpload "tok" "TK" "d" "TK.png" [7, 8]) (by decide)⟩

end PumpFun
